import Mathlib

/-!
Verification development for the remotion lambda credential/client-cache core
(`packages/lambda/src/shared/aws-clients.ts`) and the permission-simulation
orchestrator (`simulatePermissions`).

Modelling conventions:
* Environment variables are `Option String`; JavaScript truthiness of an
  environment-variable value (`undefined` and the empty string are falsy) is
  `truthy`.
* The SHA-256/base64 digest of the JSON-serialized cache descriptor is modelled
  as an injective function of the descriptor fields: the serialization used by
  the source has pairwise distinct key sets per credential variant, so the
  descriptor record `HashInput` itself serves as the collision-free fingerprint.
* Client handles are opaque; reference identity is modelled by a fresh
  allocation counter (`nextId`) carried in the cache state.
* The external `checkCredentials` collaborator (invoked on a cache miss, may
  raise a user-facing configuration error) is modelled as succeeding; the
  cache claims concern the successful-construction path.
-/

/-- JavaScript truthiness of an environment-variable / string-or-null value:
`undefined`/`null` and the empty string are falsy. -/
def truthy : Option String → Bool
  | none => false
  | some s => s != ""

/-- The ambient credential environment read by `aws-clients.ts`:
`isInsideLambda()` plus the five environment variables consulted. -/
structure Env where
  insideLambda : Bool
  remotionProfile : Option String
  remotionAccessKeyId : Option String
  remotionSecretAccessKey : Option String
  awsAccessKeyId : Option String
  awsSecretAccessKey : Option String
deriving DecidableEq

/-- The values `getCredentials` can return (besides `undefined`): a deferred
`fromIni` provider for a named profile, or an explicit key pair. -/
inductive Credentials where
  | fromIni (profile : String)
  | keyPair (accessKeyId secretAccessKey : String)
deriving DecidableEq

/-- Embedding of `getCredentials` (aws-clients.ts lines 26-55): inside Lambda
returns `undefined`; otherwise the `REMOTION_AWS_PROFILE` variable selects a
`fromIni` provider; otherwise the `REMOTION_AWS_*` key pair; otherwise the
generic `AWS_*` key pair; otherwise `undefined`. -/
def getCredentials (env : Env) : Option Credentials :=
  if env.insideLambda then none
  else if truthy env.remotionProfile then
    some (.fromIni (env.remotionProfile.getD ""))
  else if truthy env.remotionAccessKeyId && truthy env.remotionSecretAccessKey then
    some (.keyPair (env.remotionAccessKeyId.getD "") (env.remotionSecretAccessKey.getD ""))
  else if truthy env.awsAccessKeyId && truthy env.awsSecretAccessKey then
    some (.keyPair (env.awsAccessKeyId.getD "") (env.awsSecretAccessKey.getD ""))
  else none

/-- Closed set of supported services (`ServiceMapping`, aws-clients.ts). -/
inductive Service where
  | s3 | cloudwatch | iam | sts | lambda | servicequotas
deriving DecidableEq

/-- `CustomCredentials` (aws-clients.ts lines 89-96). -/
structure CustomCredentials where
  endpoint : String
  accessKeyId : Option String
  secretAccessKey : Option String
deriving DecidableEq

/-- The `credentials` sub-object of the serialized hash descriptor
(aws-clients.ts lines 67-73): `{awsProfile}` when the profile variable is
truthy, else the spread of `getCredentials() ?? {}`. Spreading `undefined ?? {}`
or a provider function contributes no fields (`empty`). -/
inductive CredDescriptor where
  | empty
  | profile (p : String)
  | keys (accessKeyId secretAccessKey : String)
deriving DecidableEq

/-- The fields serialized by `getCredentialsHash` (aws-clients.ts lines 57-78),
in the source order `credentials, customCredentials, region, service`. The
JSON-serialize-then-SHA-256 step is modelled as injective (the three credential
variants have pairwise distinct key sets, so the serialization is injective on
this record), hence the record itself is the fingerprint. -/
structure HashInput where
  credentials : CredDescriptor
  customCredentials : Option CustomCredentials
  region : String
  service : Service
deriving DecidableEq

/-- The `credentials` field of the descriptor, following the two conditional
spreads at aws-clients.ts lines 69-72. -/
def credDescriptor (env : Env) : CredDescriptor :=
  if truthy env.remotionProfile then .profile (env.remotionProfile.getD "")
  else
    match getCredentials env with
    | some (.keyPair a s) => .keys a s
    | some (.fromIni _) => .empty
    | none => .empty

/-- Embedding of `getCredentialsHash` (aws-clients.ts lines 57-78): the cache
fingerprint derived from the credential environment and the call arguments. -/
def getCredentialsHash (env : Env) (region : String)
    (customCredentials : Option CustomCredentials) (service : Service) : HashInput :=
  { credentials := credDescriptor env
    customCredentials := customCredentials
    region := region
    service := service }

/-- The configuration a client handle is constructed with: the object passed to
`new Client({...})` (aws-clients.ts lines 145-160). -/
structure ClientConfig where
  region : String
  credentials : Option Credentials
  endpoint : Option String
deriving DecidableEq

/-- An opaque client handle; `id` models reference identity (fresh per
construction). -/
structure ClientHandle where
  id : Nat
  service : Service
  config : ClientConfig
deriving DecidableEq

/-- The process-wide `_clients` record plus an allocation counter modelling
object identity. -/
structure CacheState where
  clients : List (HashInput × ClientHandle)
  nextId : Nat

/-- Lookup in the `_clients` record. -/
def findClient (k : HashInput) : List (HashInput × ClientHandle) → Option ClientHandle
  | [] => none
  | (k', h) :: t => if k' = k then some h else findClient k t

/-- The construction configuration on a cache miss (aws-clients.ts lines
144-161): with `customCredentials` present the region is pinned to
`us-east-1`, the endpoint is the custom endpoint, and the credentials are the
custom key pair when both parts are truthy (non-null and non-empty), else
`undefined`; without `customCredentials` the requested region and
`getCredentials()` are used. -/
def clientConfig (env : Env) (region : String)
    (customCredentials : Option CustomCredentials) : ClientConfig :=
  match customCredentials with
  | some c =>
    { region := "us-east-1"
      credentials :=
        if truthy c.accessKeyId && truthy c.secretAccessKey then
          some (.keyPair (c.accessKeyId.getD "") (c.secretAccessKey.getD ""))
        else none
      endpoint := some c.endpoint }
  | none =>
    { region := region
      credentials := getCredentials env
      endpoint := none }

/-- Embedding of `getServiceClient` (aws-clients.ts lines 98-165): compute the
fingerprint, return the cached handle on a hit, otherwise construct a fresh
handle and memoize it. The service-to-constructor dispatch is total here
because `Service` is the closed enum (the `unknown client` TypeError branch is
unreachable). -/
def getServiceClient (env : Env) (st : CacheState) (region : String)
    (service : Service) (customCredentials : Option CustomCredentials) :
    ClientHandle × CacheState :=
  let key := getCredentialsHash env region customCredentials service
  match findClient key st.clients with
  | some h => (h, st)
  | none =>
    let h : ClientHandle :=
      { id := st.nextId, service := service, config := clientConfig env region customCredentials }
    (h, { clients := (key, h) :: st.clients, nextId := st.nextId + 1 })

/-- The cache at process start: no clients constructed yet. -/
def emptyCache : CacheState := { clients := [], nextId := 0 }

/-- Well-formedness of a cache state reachable in one process: every cached
handle was allocated below the counter, and distinct keys hold distinct
handle identities. -/
def CacheWF (st : CacheState) : Prop :=
  (∀ k h, findClient k st.clients = some h → h.id < st.nextId) ∧
  (∀ k₁ k₂ h₁ h₂, findClient k₁ st.clients = some h₁ →
    findClient k₂ st.clients = some h₂ → h₁.id = h₂.id → k₁ = k₂)

/-!
ARN parsing (`simulatePermissions`, lines 37-81 of the orchestrator source).

The source matches the caller ARN against the JavaScript regular expression
`/arn:aws:([\w\d]+)::(\d+):([^\/]+)(.*)/` (no anchors, no flags).  On the
shapes involved the backtracking search is deterministic: each quantified
class is followed by a character the class excludes (`[\w\d]+` by `:`, `\d+`
by `:`, `[^\/]+` by an unconstrained `(.*)`), so greedy matching commits to
the maximal run, and the engine tries start offsets left to right.  `.`
matches every character except a line terminator (LF, CR, U+2028 LINE
SEPARATOR, U+2029 PARAGRAPH SEPARATOR), while `[^\/]` also matches line
terminators.  The functions below implement exactly that deterministic
search.
-/

/-- JavaScript `[\w\d]` = `[A-Za-z0-9_]` (ASCII, no unicode flag). -/
def isWordChar (c : Char) : Bool := c.isAlphanum || c == '_'

/-- JavaScript `[^\/]` (matches line terminators as well). -/
def notSlash (c : Char) : Bool := c != '/'

/-- JavaScript `.` without the dot-all flag: anything but a line terminator
(LF `\n`, CR `\r`, U+2028, U+2029). -/
def notNewline (c : Char) : Bool :=
  !(c == '\n' || c == '\r' || c == '\u2028' || c == '\u2029')

/-- The literal `arn:aws:` at the head of the pattern. -/
def arnLead : List Char := ['a', 'r', 'n', ':', 'a', 'w', 's', ':']

/-- The literal `::` between the service and account groups. -/
def colon2 : List Char := [':', ':']

/-- The literal `:` between the account and resource-type groups. -/
def colon1 : List Char := [':']

/-- Consume an expected literal: `stripPre lit s = some r` iff `s = lit ++ r`. -/
def stripPre : List Char → List Char → Option (List Char)
  | [], s => some s
  | _ :: _, [] => none
  | c :: cs, d :: ds => if c == d then stripPre cs ds else none

/-- Greedy `+`-quantified character class: the maximal (nonempty) run
satisfying `p`, plus the remainder. -/
def run1 (p : Char → Bool) (s : List Char) : Option (List Char × List Char) :=
  match s.takeWhile p with
  | [] => none
  | c :: cs => some (c :: cs, s.dropWhile p)

/-- The four capture groups of the caller-ARN pattern. -/
structure ArnGroups where
  svc : List Char
  acct : List Char
  rtype : List Char
  rest : List Char
deriving DecidableEq

/-- One attempt of `/arn:aws:([\w\d]+)::(\d+):([^\/]+)(.*)/` at a fixed start
position. -/
def matchArnAt (s : List Char) : Option ArnGroups :=
  match stripPre arnLead s with
  | none => none
  | some s1 =>
    match run1 isWordChar s1 with
    | none => none
    | some (g1, s2) =>
      match stripPre colon2 s2 with
      | none => none
      | some s3 =>
        match run1 Char.isDigit s3 with
        | none => none
        | some (g2, s4) =>
          match stripPre colon1 s4 with
          | none => none
          | some s5 =>
            match run1 notSlash s5 with
            | none => none
            | some (g3, s6) => some ⟨g1, g2, g3, s6.takeWhile notNewline⟩

/-- The unanchored search: try each start offset left to right. -/
def findArn : List Char → Option ArnGroups
  | [] => none
  | c :: t =>
    match matchArnAt (c :: t) with
    | some g => some g
    | none => findArn t

/-- One attempt of the assumed-role pattern `/\/([^\/]+)\/(.*)/` at a fixed
start position: role name and session. -/
def matchRoleAt (s : List Char) : Option (List Char × List Char) :=
  match stripPre ['/'] s with
  | none => none
  | some s1 =>
    match run1 notSlash s1 with
    | none => none
    | some (g1, s2) =>
      match stripPre ['/'] s2 with
      | none => none
      | some s3 => some (g1, s3.takeWhile notNewline)

/-- Unanchored search for the assumed-role pattern. -/
def findRoleSession : List Char → Option (List Char × List Char)
  | [] => none
  | c :: t =>
    match matchRoleAt (c :: t) with
    | some g => some g
    | none => findRoleSession t

/-- The failure kinds thrown by `simulatePermissions`; `simFailure` carries a
failure propagated unchanged from the `simulateRule` collaborator. -/
inductive SimError where
  | noIdentity
  | unsupportedArn
  | unsupportedAssumedRole
  | simFailure (msg : String)
deriving DecidableEq

/-- The exact `Error` message text of each failure kind in the source. -/
def errorMessage : SimError → String
  | .noIdentity => "No valid AWS calling identity detected"
  | .unsupportedArn => "Unsupported AWS ARN detected"
  | .unsupportedAssumedRole => "Unsupported AWS Assumed-Role ARN detected"
  | .simFailure m => m

/-- Embedding of the identity-normalization block of `simulatePermissions`
(orchestrator source lines 46-62): match the caller ARN, pass an IAM user
through unchanged (the whole original string), rewrite an sts assumed-role to
the role ARN, reject anything else. -/
def normalizeArn (rawArn : String) : Except SimError String :=
  match findArn rawArn.data with
  | none => .error .unsupportedArn
  | some g =>
    if g.svc = "iam".data ∧ g.rtype = "user".data then
      .ok rawArn
    else if g.svc = "sts".data ∧ g.rtype = "assumed-role".data then
      match findRoleSession g.rest with
      | none => .error .unsupportedAssumedRole
      | some rs =>
        .ok (String.mk ("arn:aws:iam::".data ++ g.acct ++ ":role/".data ++ rs.1))
    else .error .unsupportedArn

/-- Modelled from the spec: `EvalDecision` lives in `simulate-rule.ts`, which
is not part of the sample; the spec gives `{allowed, implicitDeny,
explicitDeny, ...}`. -/
inductive EvalDecision where
  | allowed | implicitDeny | explicitDeny
deriving DecidableEq

/-- Modelled from the spec: `SimulationResult` (`{name, decision}`) lives in
`simulate-rule.ts`, which is not part of the sample. -/
structure SimulationResult where
  name : String
  decision : EvalDecision
deriving DecidableEq

/-- Modelled from the spec: a `RequiredPermission` entry (`{actions,
resource}`) of the static `requiredPermissions` table from
`user-permissions.ts`, which is not part of the sample. -/
structure RequiredPermission where
  actions : List String
  resource : String
deriving DecidableEq

/-- Emoji selection for a decision (orchestrator source lines 8-15). -/
def getEmojiForStatus (decision : EvalDecision) : String :=
  match decision with
  | .allowed => "✅"
  | _ => "❌"

/-- Log line for one result (orchestrator source lines 17-19). -/
def logPermissionOutput (output : SimulationResult) : String :=
  getEmojiForStatus output.decision ++ " " ++ output.name

/-- Observable events of one `simulatePermissions` run, in order: a
`simulateRule` collaborator call (with the principal ARN and the fixed retry
budget it is passed), or an `onSimulation` callback invocation. -/
inductive SimEvent where
  | simCall (arn : String) (p : RequiredPermission) (retries : Nat)
  | callback (r : SimulationResult)
deriving DecidableEq

/-- The `for (const per of requiredPermissions)` loop (orchestrator source
lines 66-78): call the collaborator per permission with `retries: 2`, push
each returned result and invoke the optional callback on it, abort on the
first collaborator failure. Returns the ordered event trace and either the
aggregated results or the propagated failure. -/
def runLoop (sim : String → RequiredPermission → Except SimError (List SimulationResult))
    (arn : String) (hasCb : Bool) :
    List RequiredPermission → List SimulationResult →
    List SimEvent × Except SimError (List SimulationResult)
  | [], acc => ([], .ok acc)
  | p :: ps, acc =>
    match sim arn p with
    | .error e => ([.simCall arn p 2], .error e)
    | .ok rs =>
      let rec' := runLoop sim arn hasCb ps (acc ++ rs)
      (.simCall arn p 2 :: ((if hasCb then rs.map .callback else []) ++ rec'.1), rec'.2)

/-- Embedding of `simulatePermissions` (orchestrator source lines 37-81).
`callerIdentity` is the response of the external STS `GetCallerIdentity`
collaborator (`none` = falsy response, inner value the optional `Arn` field);
`sim` is the external `simulateRule` collaborator; `hasCb` records whether an
`onSimulation` callback was supplied; `perms` is the required-permission
table. -/
def simulatePermissions (callerIdentity : Option (Option String))
    (sim : String → RequiredPermission → Except SimError (List SimulationResult))
    (hasCb : Bool) (perms : List RequiredPermission) :
    List SimEvent × Except SimError (List SimulationResult) :=
  match callerIdentity with
  | none => ([], .error .noIdentity)
  | some arnOpt =>
    match arnOpt with
    | none => ([], .error .noIdentity)
    | some rawArn =>
      if rawArn = "" then ([], .error .noIdentity)
      else
        match normalizeArn rawArn with
        | .error e => ([], .error e)
        | .ok arn => runLoop sim arn hasCb perms []

/-- The event stream the spec prescribes for a fully successful run with a
supplied callback: per permission, in list order, one collaborator call
followed by one callback per returned result, in the order returned. -/
def specOrderedTrace (arn : String) (resOf : RequiredPermission → List SimulationResult) :
    List RequiredPermission → List SimEvent
  | [] => []
  | p :: ps => .simCall arn p 2 :: ((resOf p).map .callback ++ specOrderedTrace arn resOf ps)

/-- Fixture permissions and collaborators for concrete runs of the
orchestrator. -/
def permA : RequiredPermission :=
  ⟨["s3:GetObject", "s3:PutObject"], "arn:aws:s3:::bucket-a/*"⟩

/-- A second fixture permission. -/
def permB : RequiredPermission := ⟨["iam:SimulatePrincipalPolicy"], "*"⟩

/-- Fixture results per permission. -/
def resFix : RequiredPermission → List SimulationResult := fun p =>
  if p = permA then [⟨"s3:GetObject", .allowed⟩, ⟨"s3:PutObject", .implicitDeny⟩]
  else [⟨"iam:SimulatePrincipalPolicy", .allowed⟩]

/-- A collaborator that always succeeds with the fixture results. -/
def simFix : String → RequiredPermission → Except SimError (List SimulationResult) :=
  fun _ p => .ok (resFix p)

/-- A collaborator that fails on `permB` and succeeds elsewhere. -/
def simFailFix : String → RequiredPermission → Except SimError (List SimulationResult) :=
  fun _ p => if p = permB then .error (.simFailure "AccessDenied") else .ok (resFix p)

/-! Helper lemmas. -/

/-- String concatenation concatenates the underlying character lists. -/
lemma data_append (s t : String) : (s ++ t).data = s.data ++ t.data := rfl

/-- Strings with equal character lists are equal. -/
lemma data_inj {s t : String} (h : s.data = t.data) : s = t := by
  cases s; cases t; cases h; rfl

/-- A nonempty string has a nonempty character list. -/
lemma ne_empty_data {s : String} (h : s ≠ "") : s.data ≠ [] := by
  intro hd; exact h (data_inj hd)

/-- `stripPre` succeeds on exactly its literal plus a remainder. -/
lemma stripPre_pre (xs : List Char) : ∀ r, stripPre xs (xs ++ r) = some r := by
  induction xs with
  | nil => intro r; rfl
  | cons c cs ih => intro r; simp [stripPre, ih r]

/-- `takeWhile` passes over a block of satisfying characters. -/
lemma takeWhile_all_append (p : Char → Bool) (xs r : List Char)
    (h1 : ∀ c ∈ xs, p c = true) :
    (xs ++ r).takeWhile p = xs ++ r.takeWhile p := by
  induction xs with
  | nil => simp
  | cons c cs ih =>
    have hc : p c = true := h1 c (by simp)
    simp only [List.cons_append, List.takeWhile_cons_of_pos hc]
    rw [ih (fun d hd => h1 d (by simp [hd]))]

/-- `dropWhile` drops a block of satisfying characters. -/
lemma dropWhile_all_append (p : Char → Bool) (xs r : List Char)
    (h1 : ∀ c ∈ xs, p c = true) :
    (xs ++ r).dropWhile p = r.dropWhile p := by
  induction xs with
  | nil => simp
  | cons c cs ih =>
    have hc : p c = true := h1 c (by simp)
    simp only [List.cons_append, List.dropWhile_cons_of_pos hc]
    exact ih (fun d hd => h1 d (by simp [hd]))

/-- `takeWhile` stops at a failing head. -/
lemma takeWhile_head_neg (p : Char → Bool) (r : List Char)
    (h : ∀ c, r.head? = some c → p c = false) : r.takeWhile p = [] := by
  cases r with
  | nil => rfl
  | cons c cs =>
    have := h c rfl
    simp [List.takeWhile_cons, this]

/-- `dropWhile` stops at a failing head. -/
lemma dropWhile_head_neg (p : Char → Bool) (r : List Char)
    (h : ∀ c, r.head? = some c → p c = false) : r.dropWhile p = r := by
  cases r with
  | nil => rfl
  | cons c cs =>
    have := h c rfl
    simp [List.dropWhile_cons, this]

/-- A greedy `+` class commits to the maximal run: on a nonempty block of
satisfying characters followed by a remainder whose head fails the class, it
captures exactly the block. -/
lemma run1_eq (p : Char → Bool) (xs r : List Char) (h0 : xs ≠ [])
    (h1 : ∀ c ∈ xs, p c = true)
    (h2 : ∀ c, r.head? = some c → p c = false) :
    run1 p (xs ++ r) = some (xs, r) := by
  have ht : (xs ++ r).takeWhile p = xs := by
    rw [takeWhile_all_append p xs r h1, takeWhile_head_neg p r h2, List.append_nil]
  have hd : (xs ++ r).dropWhile p = r := by
    rw [dropWhile_all_append p xs r h1, dropWhile_head_neg p r h2]
  cases xs with
  | nil => exact absurd rfl h0
  | cons c cs =>
    simp only [List.cons_append] at ht hd
    simp [run1, List.cons_append, ht, hd]

/-- The caller-ARN pattern, applied at the start of a string assembled from
its intended groups, captures exactly those groups. -/
lemma matchArnAt_build (svc acct rtype rest : List Char)
    (hs0 : svc ≠ []) (hs1 : ∀ c ∈ svc, isWordChar c = true)
    (ha0 : acct ≠ []) (ha1 : ∀ c ∈ acct, c.isDigit = true)
    (hr0 : rtype ≠ []) (hr1 : ∀ c ∈ rtype, notSlash c = true)
    (hrest : rest = [] ∨ rest.head? = some '/') :
    matchArnAt (arnLead ++ (svc ++ (colon2 ++ (acct ++ (colon1 ++ (rtype ++ rest))))))
      = some ⟨svc, acct, rtype, rest.takeWhile notNewline⟩ := by
  have e1 := stripPre_pre arnLead (svc ++ (colon2 ++ (acct ++ (colon1 ++ (rtype ++ rest)))))
  have e2 : run1 isWordChar (svc ++ (colon2 ++ (acct ++ (colon1 ++ (rtype ++ rest)))))
      = some (svc, colon2 ++ (acct ++ (colon1 ++ (rtype ++ rest)))) := by
    refine run1_eq _ _ _ hs0 hs1 ?_
    intro c hc
    have hcc : ':' = c := by simpa [colon2] using hc
    subst hcc; decide
  have e3 := stripPre_pre colon2 (acct ++ (colon1 ++ (rtype ++ rest)))
  have e4 : run1 Char.isDigit (acct ++ (colon1 ++ (rtype ++ rest)))
      = some (acct, colon1 ++ (rtype ++ rest)) := by
    refine run1_eq _ _ _ ha0 ha1 ?_
    intro c hc
    have hcc : ':' = c := by simpa [colon1] using hc
    subst hcc; decide
  have e5 := stripPre_pre colon1 (rtype ++ rest)
  have e6 : run1 notSlash (rtype ++ rest) = some (rtype, rest) := by
    refine run1_eq _ _ _ hr0 hr1 ?_
    intro c hc
    rcases hrest with h | h
    · subst h; simp at hc
    · rw [h] at hc
      have hcc : '/' = c := by simpa using hc
      subst hcc; decide
  simp [matchArnAt, e1, e2, e3, e4, e5, e6]

/-- A successful attempt at offset zero is what the unanchored search returns. -/
lemma findArn_of_match (s : List Char) (g : ArnGroups) (h : matchArnAt s = some g) :
    findArn s = some g := by
  cases s with
  | nil => simp [matchArnAt, stripPre, arnLead] at h
  | cons c t => simp [findArn, h]

/-- The unanchored search skips a block of offsets at which the attempt
fails. -/
lemma findArn_skip (s : List Char) : ∀ pre : List Char,
    (∀ i < pre.length, matchArnAt (List.drop i pre ++ s) = none) →
    findArn (pre ++ s) = findArn s := by
  intro pre
  induction pre with
  | nil => intro _; rfl
  | cons c t ih =>
    intro h
    have h0 : matchArnAt (c :: (t ++ s)) = none := by
      have := h 0 (by simp)
      simpa using this
    have ht : findArn (t ++ s) = findArn s := by
      refine ih ?_
      intro i hi
      have := h (i + 1) (by simpa using Nat.succ_lt_succ hi)
      simpa using this
    simp [findArn, h0, ht]

/-- The assumed-role pattern, applied at the start of a string assembled from
a nonempty slash-free role name and a session remainder, captures the role. -/
lemma matchRoleAt_build (role sess : List Char) (h0 : role ≠ [])
    (h1 : ∀ c ∈ role, notSlash c = true) :
    matchRoleAt ('/' :: (role ++ '/' :: sess)) = some (role, sess.takeWhile notNewline) := by
  have e1 : stripPre ['/'] ('/' :: (role ++ '/' :: sess)) = some (role ++ '/' :: sess) :=
    stripPre_pre ['/'] (role ++ '/' :: sess)
  have e2 : run1 notSlash (role ++ '/' :: sess) = some (role, '/' :: sess) := by
    refine run1_eq _ _ _ h0 h1 ?_
    intro c hc
    have hcc : '/' = c := by simpa using hc
    subst hcc; decide
  have e3 : stripPre ['/'] (('/' : Char) :: sess) = some sess := stripPre_pre ['/'] sess
  simp [matchRoleAt, e1, e2, e3]

/-- The assumed-role attempt fails at the start when there is no second
slash. -/
lemma matchRoleAt_no_second (role : List Char) (h1 : ∀ c ∈ role, c ≠ '/') :
    matchRoleAt ('/' :: role) = none := by
  cases role with
  | nil => decide
  | cons c cs =>
    have h1' : ∀ d ∈ c :: cs, notSlash d = true := by
      intro d hd; simpa [notSlash] using h1 d hd
    have e2 : run1 notSlash ((c :: cs) ++ []) = some (c :: cs, []) :=
      run1_eq notSlash (c :: cs) [] (by simp) h1' (by intro x hx; simp at hx)
    rw [List.append_nil] at e2
    simp [matchRoleAt, stripPre_pre ['/'] (c :: cs), e2, stripPre]

/-- The unanchored assumed-role search fails on a slash-free string. -/
lemma findRoleSession_no_slash (l : List Char) (h : ∀ c ∈ l, c ≠ '/') :
    findRoleSession l = none := by
  induction l with
  | nil => rfl
  | cons c t ih =>
    have hc : c ≠ '/' := h c (by simp)
    have hm : matchRoleAt (c :: t) = none := by
      have hne : ('/' : Char) ≠ c := Ne.symm hc
      simp [matchRoleAt, stripPre, hne]
    simp only [findRoleSession, hm]
    exact ih (fun d hd => h d (by simp [hd]))

/-- The unanchored assumed-role search fails on a single slash followed by a
slash-free remainder (no session segment). -/
lemma findRoleSession_single (role : List Char) (h1 : ∀ c ∈ role, c ≠ '/') :
    findRoleSession ('/' :: role) = none := by
  simp only [findRoleSession, matchRoleAt_no_second role h1]
  exact findRoleSession_no_slash role h1

/-- A successful assumed-role attempt at offset zero is what the search
returns. -/
lemma findRoleSession_of_match (s : List Char) (g : List Char × List Char)
    (h : matchRoleAt s = some g) : findRoleSession s = some g := by
  cases s with
  | nil => simp [matchRoleAt, stripPre] at h
  | cons c t => simp [findRoleSession, h]

/-- On a block of permissions the collaborator answers successfully, the loop
emits the prescribed trace and appends the results in encounter order. -/
lemma runLoop_ok (sim : String → RequiredPermission → Except SimError (List SimulationResult))
    (arn : String) (resOf : RequiredPermission → List SimulationResult) :
    ∀ (ps : List RequiredPermission) (acc : List SimulationResult),
    (∀ p ∈ ps, sim arn p = .ok (resOf p)) →
    runLoop sim arn true ps acc
      = (specOrderedTrace arn resOf ps, .ok (acc ++ (ps.map resOf).flatten)) := by
  intro ps
  induction ps with
  | nil => intro acc _; simp [runLoop, specOrderedTrace]
  | cons p ps ih =>
    intro acc h
    have hp : sim arn p = .ok (resOf p) := h p (by simp)
    have hrest : ∀ q ∈ ps, sim arn q = .ok (resOf q) := fun q hq => h q (by simp [hq])
    simp [runLoop, hp, specOrderedTrace, ih (acc ++ resOf p) hrest, List.append_assoc]

/-- When the collaborator fails on a permission after a successful block, the
loop stops at the failing call and propagates the failure. -/
lemma runLoop_error (sim : String → RequiredPermission → Except SimError (List SimulationResult))
    (arn : String) (resOf : RequiredPermission → List SimulationResult)
    (e : SimError) (p₀ : RequiredPermission) :
    ∀ (ps1 ps2 : List RequiredPermission) (acc : List SimulationResult),
    (∀ p ∈ ps1, sim arn p = .ok (resOf p)) → sim arn p₀ = .error e →
    runLoop sim arn true (ps1 ++ p₀ :: ps2) acc
      = (specOrderedTrace arn resOf ps1 ++ [.simCall arn p₀ 2], .error e) := by
  intro ps1
  induction ps1 with
  | nil => intro ps2 acc _ h0; simp [runLoop, h0, specOrderedTrace]
  | cons p ps ih =>
    intro ps2 acc h h0
    have hp : sim arn p = .ok (resOf p) := h p (by simp)
    have hrest : ∀ q ∈ ps, sim arn q = .ok (resOf q) := fun q hq => h q (by simp [hq])
    simp [runLoop, hp, specOrderedTrace, ih ps2 (acc ++ resOf p) hrest h0, List.append_assoc]

/-- Only listed permissions give rise to collaborator-call events in the
prescribed trace. -/
lemma simCall_mem_specTrace (arn : String) (resOf : RequiredPermission → List SimulationResult) :
    ∀ (ps : List RequiredPermission) (q : RequiredPermission) (n : Nat),
    SimEvent.simCall arn q n ∈ specOrderedTrace arn resOf ps → q ∈ ps := by
  intro ps
  induction ps with
  | nil => intro q n h; simp [specOrderedTrace] at h
  | cons p ps ih =>
    intro q n h
    simp only [specOrderedTrace, List.mem_cons, List.mem_append, List.mem_map] at h
    rcases h with h | h | h
    · cases h; simp
    · rcases h with ⟨r, _, hr⟩; cases hr
    · exact List.mem_cons_of_mem _ (ih q n h)

/-- The empty cache is well formed. -/
lemma cacheWF_empty : CacheWF emptyCache := by
  constructor
  · intro k h hh; simp [emptyCache, findClient] at hh
  · intro k₁ k₂ h₁ h₂ hh; simp [emptyCache, findClient] at hh

/-- Claim C7: for a fixed credential environment and fixed
(region, customCredentials, service) arguments, two calls to the fingerprint
derivation produce identical output. -/
theorem getCredentialsHash_deterministic (env₁ env₂ : Env) (r₁ r₂ : String)
    (cc₁ cc₂ : Option CustomCredentials) (s₁ s₂ : Service)
    (he : env₁ = env₂) (hr : r₁ = r₂) (hc : cc₁ = cc₂) (hs : s₁ = s₂) :
    getCredentialsHash env₁ r₁ cc₁ s₁ = getCredentialsHash env₂ r₂ cc₂ s₂ := by
  subst he; subst hr; subst hc; subst hs; rfl

theorem getCredentialsHash_deterministic_witness :
    getCredentialsHash ⟨false, none, none, none, none, none⟩ "eu-central-1" none .s3
      = getCredentialsHash ⟨false, none, none, none, none, none⟩ "eu-central-1" none .s3 :=
  getCredentialsHash_deterministic ⟨false, none, none, none, none, none⟩
    ⟨false, none, none, none, none, none⟩ "eu-central-1" "eu-central-1" none none .s3 .s3
    rfl rfl rfl rfl

/-- Claim C6: with all other inputs and the credential environment held fixed,
perturbing any single one of the region, the service, the custom-credentials
endpoint, or an explicit (truthy) access-key value changes the derived cache
fingerprint; the digest is modelled as collision-free, so differing
descriptors give differing fingerprints. -/
theorem getCredentialsHash_sensitivity :
    (∀ (env : Env) (r r' : String) (cc : Option CustomCredentials) (svc : Service),
      r ≠ r' → getCredentialsHash env r cc svc ≠ getCredentialsHash env r' cc svc) ∧
    (∀ (env : Env) (r : String) (cc : Option CustomCredentials) (svc svc' : Service),
      svc ≠ svc' → getCredentialsHash env r cc svc ≠ getCredentialsHash env r cc svc') ∧
    (∀ (env : Env) (r : String) (svc : Service) (e e' : String) (k s : Option String),
      e ≠ e' → getCredentialsHash env r (some ⟨e, k, s⟩) svc
        ≠ getCredentialsHash env r (some ⟨e', k, s⟩) svc) ∧
    (∀ (env : Env) (r : String) (cc : Option CustomCredentials) (svc : Service) (a a' sk : String),
      env.insideLambda = false → truthy env.remotionProfile = false →
      env.remotionSecretAccessKey = some sk → sk ≠ "" →
      a ≠ "" → a' ≠ "" → a ≠ a' →
      getCredentialsHash { env with remotionAccessKeyId := some a } r cc svc
        ≠ getCredentialsHash { env with remotionAccessKeyId := some a' } r cc svc) := by
  refine ⟨?_, ?_, ?_, ?_⟩
  · intro env r r' cc svc hne h
    exact hne (congrArg HashInput.region h)
  · intro env r cc svc svc' hne h
    exact hne (congrArg HashInput.service h)
  · intro env r svc e e' k s hne h
    have := congrArg HashInput.customCredentials h
    simp [getCredentialsHash] at this
    exact hne this
  · intro env r cc svc a a' sk hl hp hsk hsk' ha ha' hne h
    have hts : truthy (some sk) = true := by simp [truthy, hsk']
    have h1 : credDescriptor { env with remotionAccessKeyId := some a }
        = CredDescriptor.keys a sk := by
      have hta : truthy (some a) = true := by simp [truthy, ha]
      simp [credDescriptor, getCredentials, hl, hp, hsk, hta, hts]
    have h2 : credDescriptor { env with remotionAccessKeyId := some a' }
        = CredDescriptor.keys a' sk := by
      have hta : truthy (some a') = true := by simp [truthy, ha']
      simp [credDescriptor, getCredentials, hl, hp, hsk, hta, hts]
    have := congrArg HashInput.credentials h
    simp [getCredentialsHash, h1, h2] at this
    exact hne this

theorem getCredentialsHash_sensitivity_witness :
    getCredentialsHash ⟨false, none, none, none, none, none⟩ "eu-central-1" none .s3
      ≠ getCredentialsHash ⟨false, none, none, none, none, none⟩ "us-east-1" none .s3 ∧
    getCredentialsHash ⟨false, none, none, none, none, none⟩ "eu-central-1" none .s3
      ≠ getCredentialsHash ⟨false, none, none, none, none, none⟩ "eu-central-1" none .lambda ∧
    getCredentialsHash ⟨false, none, none, none, none, none⟩ "eu-central-1"
        (some ⟨"http://a", none, none⟩) .s3
      ≠ getCredentialsHash ⟨false, none, none, none, none, none⟩ "eu-central-1"
        (some ⟨"http://b", none, none⟩) .s3 ∧
    getCredentialsHash { (⟨false, none, none, some "sec", none, none⟩ : Env) with
        remotionAccessKeyId := some "AKIA1" } "eu-central-1" none .s3
      ≠ getCredentialsHash { (⟨false, none, none, some "sec", none, none⟩ : Env) with
        remotionAccessKeyId := some "AKIA2" } "eu-central-1" none .s3 :=
  ⟨getCredentialsHash_sensitivity.1 ⟨false, none, none, none, none, none⟩
      "eu-central-1" "us-east-1" none .s3 (by decide),
   getCredentialsHash_sensitivity.2.1 ⟨false, none, none, none, none, none⟩
      "eu-central-1" none .s3 .lambda (by decide),
   getCredentialsHash_sensitivity.2.2.1 ⟨false, none, none, none, none, none⟩
      "eu-central-1" .s3 "http://a" "http://b" none none (by decide),
   getCredentialsHash_sensitivity.2.2.2 ⟨false, none, none, some "sec", none, none⟩
      "eu-central-1" none .s3 "AKIA1" "AKIA2" "sec" rfl rfl rfl (by decide) (by decide)
      (by decide) (by decide)⟩

/-- Claim C8, counterexample: the profile environment variable can be *set*
(to the empty string) while credential resolution ignores it and falls through
to the default, because the source tests JavaScript truthiness, not
definedness. -/
theorem getCredentials_empty_profile_counterexample :
    getCredentials ⟨false, some "", none, none, none, none⟩ = none ∧
    (Env.remotionProfile ⟨false, some "", none, none, none, none⟩ ≠ none) := by
  refine ⟨by decide, by decide⟩

/-- Claim C8, amended: credential resolution selects exactly one source by
fixed priority, where a variable counts only when set to a NON-EMPTY value
(JavaScript truthiness): inside Lambda the ambient value (undefined)
regardless of variables; else a named-profile provider when the profile
variable is truthy; else the tool-specific key pair when both its variables
are truthy; else the generic key pair when both its variables are truthy;
else the none/default value. -/
theorem getCredentials_priority_order :
    (∀ env : Env, env.insideLambda = true → getCredentials env = none) ∧
    (∀ (env : Env) (p : String), env.insideLambda = false →
      env.remotionProfile = some p → p ≠ "" →
      getCredentials env = some (.fromIni p)) ∧
    (∀ (env : Env) (a s : String), env.insideLambda = false →
      truthy env.remotionProfile = false →
      env.remotionAccessKeyId = some a → a ≠ "" →
      env.remotionSecretAccessKey = some s → s ≠ "" →
      getCredentials env = some (.keyPair a s)) ∧
    (∀ (env : Env) (a s : String), env.insideLambda = false →
      truthy env.remotionProfile = false →
      (truthy env.remotionAccessKeyId && truthy env.remotionSecretAccessKey) = false →
      env.awsAccessKeyId = some a → a ≠ "" →
      env.awsSecretAccessKey = some s → s ≠ "" →
      getCredentials env = some (.keyPair a s)) ∧
    (∀ env : Env, env.insideLambda = false →
      truthy env.remotionProfile = false →
      (truthy env.remotionAccessKeyId && truthy env.remotionSecretAccessKey) = false →
      (truthy env.awsAccessKeyId && truthy env.awsSecretAccessKey) = false →
      getCredentials env = none) := by
  refine ⟨?_, ?_, ?_, ?_, ?_⟩
  · intro env hl
    simp [getCredentials, hl]
  · intro env p hl hp hp'
    have htp : truthy (some p) = true := by simp [truthy, hp']
    simp [getCredentials, hl, hp, htp]
  · intro env a s hl hp ha ha' hs hs'
    have hta : truthy (some a) = true := by simp [truthy, ha']
    have hts : truthy (some s) = true := by simp [truthy, hs']
    simp [getCredentials, hl, hp, ha, hs, hta, hts]
  · intro env a s hl hp hpair ha ha' hs hs'
    have hta : truthy (some a) = true := by simp [truthy, ha']
    have hts : truthy (some s) = true := by simp [truthy, hs']
    simp [getCredentials, hl, hp, hpair, ha, hs, hta, hts]
  · intro env hl hp hpair1 hpair2
    simp [getCredentials, hl, hp, hpair1, hpair2]

theorem getCredentials_priority_order_witness :
    getCredentials ⟨true, some "prof", some "a", some "b", some "c", some "d"⟩ = none ∧
    getCredentials ⟨false, some "prof", some "a", some "b", some "c", some "d"⟩
      = some (.fromIni "prof") ∧
    getCredentials ⟨false, none, some "ra", some "rs", some "ga", some "gs"⟩
      = some (.keyPair "ra" "rs") ∧
    getCredentials ⟨false, none, none, some "rs", some "ga", some "gs"⟩
      = some (.keyPair "ga" "gs") ∧
    getCredentials ⟨false, none, none, some "rs", none, some "gs"⟩ = none :=
  ⟨getCredentials_priority_order.1 ⟨true, some "prof", some "a", some "b", some "c", some "d"⟩ rfl,
   getCredentials_priority_order.2.1 ⟨false, some "prof", some "a", some "b", some "c", some "d"⟩
     "prof" rfl rfl (by decide),
   getCredentials_priority_order.2.2.1 ⟨false, none, some "ra", some "rs", some "ga", some "gs"⟩
     "ra" "rs" rfl (by decide) rfl (by decide) rfl (by decide),
   getCredentials_priority_order.2.2.2.1 ⟨false, none, none, some "rs", some "ga", some "gs"⟩
     "ga" "gs" rfl (by decide) (by decide) rfl (by decide) rfl (by decide),
   getCredentials_priority_order.2.2.2.2 ⟨false, none, none, some "rs", none, some "gs"⟩
     rfl (by decide) (by decide) (by decide)⟩

/-- Claim C9, counterexample: with both custom key parts non-null but the
access key the empty string, construction uses `undefined` credentials, not
the custom key pair, because the source tests JavaScript truthiness, not
nullness. -/
theorem getServiceClient_empty_key_counterexample :
    (getServiceClient ⟨false, none, none, none, none, none⟩ emptyCache "eu-west-1" .s3
        (some ⟨"http://localhost:9000", some "", some "secret"⟩)).1.config.credentials = none ∧
    (some "" : Option String) ≠ none ∧ (some "secret" : Option String) ≠ none ∧
    (none : Option Credentials) ≠ some (.keyPair "" "secret") := by
  refine ⟨by decide, by decide, by decide, by decide⟩

/-- Claim C9, amended: on a cache miss with custom credentials, the client is
constructed with the region pinned to `us-east-1` (ignoring the requested
region), with the custom endpoint, and with the custom key pair as
credentials when both `accessKeyId` and `secretAccessKey` are non-null AND
non-empty (truthy), else with undefined credentials; with null custom
credentials, with the requested region and the resolved credential source. -/
theorem getServiceClient_construction :
    (∀ (env : Env) (st : CacheState) (r : String) (svc : Service)
        (c : CustomCredentials) (a s : String),
      findClient (getCredentialsHash env r (some c) svc) st.clients = none →
      c.accessKeyId = some a → a ≠ "" → c.secretAccessKey = some s → s ≠ "" →
      (getServiceClient env st r svc (some c)).1.config
        = ⟨"us-east-1", some (.keyPair a s), some c.endpoint⟩) ∧
    (∀ (env : Env) (st : CacheState) (r : String) (svc : Service) (c : CustomCredentials),
      findClient (getCredentialsHash env r (some c) svc) st.clients = none →
      (truthy c.accessKeyId && truthy c.secretAccessKey) = false →
      (getServiceClient env st r svc (some c)).1.config
        = ⟨"us-east-1", none, some c.endpoint⟩) ∧
    (∀ (env : Env) (st : CacheState) (r : String) (svc : Service),
      findClient (getCredentialsHash env r none svc) st.clients = none →
      (getServiceClient env st r svc none).1.config
        = ⟨r, getCredentials env, none⟩) := by
  refine ⟨?_, ?_, ?_⟩
  · intro env st r svc c a s hmiss ha ha' hs hs'
    have hta : truthy (some a) = true := by simp [truthy, ha']
    have hts : truthy (some s) = true := by simp [truthy, hs']
    simp [getServiceClient, hmiss, clientConfig, ha, hs, hta, hts]
  · intro env st r svc c hmiss hpair
    simp [getServiceClient, hmiss, clientConfig, hpair]
  · intro env st r svc hmiss
    simp [getServiceClient, hmiss, clientConfig]

theorem getServiceClient_construction_witness :
    (getServiceClient ⟨false, none, none, none, none, none⟩ emptyCache "eu-west-1" .s3
        (some ⟨"http://localhost:9000", some "AKIA", some "secret"⟩)).1.config
      = ⟨"us-east-1", some (.keyPair "AKIA" "secret"), some "http://localhost:9000"⟩ ∧
    (getServiceClient ⟨false, none, none, none, none, none⟩ emptyCache "eu-west-1" .s3
        (some ⟨"http://localhost:9000", none, some "secret"⟩)).1.config
      = ⟨"us-east-1", none, some "http://localhost:9000"⟩ ∧
    (getServiceClient ⟨false, none, some "ra", some "rs", none, none⟩ emptyCache
        "eu-west-1" .s3 none).1.config
      = ⟨"eu-west-1", getCredentials ⟨false, none, some "ra", some "rs", none, none⟩, none⟩ :=
  ⟨getServiceClient_construction.1 ⟨false, none, none, none, none, none⟩ emptyCache
      "eu-west-1" .s3 ⟨"http://localhost:9000", some "AKIA", some "secret"⟩ "AKIA" "secret"
      rfl rfl (by decide) rfl (by decide),
   getServiceClient_construction.2.1 ⟨false, none, none, none, none, none⟩ emptyCache
      "eu-west-1" .s3 ⟨"http://localhost:9000", none, some "secret"⟩ rfl (by decide),
   getServiceClient_construction.2.2 ⟨false, none, some "ra", some "rs", none, none⟩ emptyCache
      "eu-west-1" .s3 rfl⟩

/-- Differing regions give differing fingerprints (with everything else
fixed). -/
lemma hash_region_ne (env : Env) (r r' : String) (cc : Option CustomCredentials)
    (svc : Service) (hne : r' ≠ r) :
    getCredentialsHash env r' cc svc ≠ getCredentialsHash env r cc svc := by
  intro h; exact hne (congrArg HashInput.region h)

/-- A lookup ignores a head entry with a different key. -/
lemma findClient_cons_ne (k k' : HashInput) (h : ClientHandle)
    (t : List (HashInput × ClientHandle)) (hne : k ≠ k') :
    findClient k' ((k, h) :: t) = findClient k' t := by
  simp [findClient, hne]

/-- A cache hit returns the stored handle and leaves the state unchanged. -/
lemma getServiceClient_hit {env : Env} {st : CacheState} {r : String}
    {svc : Service} {cc : Option CustomCredentials} {h : ClientHandle}
    (h1 : findClient (getCredentialsHash env r cc svc) st.clients = some h) :
    getServiceClient env st r svc cc = (h, st) := by
  simp [getServiceClient, h1]

/-- A cache miss constructs a fresh handle and memoizes it. -/
lemma getServiceClient_miss {env : Env} {st : CacheState} {r : String}
    {svc : Service} {cc : Option CustomCredentials}
    (h1 : findClient (getCredentialsHash env r cc svc) st.clients = none) :
    getServiceClient env st r svc cc
      = (⟨st.nextId, svc, clientConfig env r cc⟩,
         ⟨(getCredentialsHash env r cc svc,
            (⟨st.nextId, svc, clientConfig env r cc⟩ : ClientHandle)) :: st.clients,
          st.nextId + 1⟩) := by
  simp [getServiceClient, h1]

/-- Claim C1: within one process with an unchanged credential environment,
`getServiceClient` is idempotent on the cache: a second call with equal
(region, service, customCredentials) returns the identical handle instance
and leaves the cache unchanged, while a call differing in region returns a
handle that is not the same instance. -/
theorem getServiceClient_cache_idempotent (env : Env) (st : CacheState)
    (r r' : String) (svc : Service) (cc : Option CustomCredentials)
    (hwf : CacheWF st) (hne : r' ≠ r) :
    getServiceClient env (getServiceClient env st r svc cc).2 r svc cc
      = getServiceClient env st r svc cc ∧
    (getServiceClient env (getServiceClient env st r svc cc).2 r' svc cc).1
      ≠ (getServiceClient env st r svc cc).1 := by
  have hkey := hash_region_ne env r r' cc svc hne
  cases h1 : findClient (getCredentialsHash env r cc svc) st.clients with
  | some h =>
    rw [getServiceClient_hit h1]
    constructor
    · exact getServiceClient_hit h1
    · cases h2 : findClient (getCredentialsHash env r' cc svc) st.clients with
      | some h' =>
        rw [getServiceClient_hit h2]
        intro heq
        exact hkey (hwf.2 _ _ _ _ h2 h1 (congrArg ClientHandle.id heq))
      | none =>
        have hid : h.id < st.nextId := hwf.1 _ _ h1
        rw [getServiceClient_miss h2]
        intro heq
        have : st.nextId = h.id := congrArg ClientHandle.id heq
        omega
  | none =>
    rw [getServiceClient_miss h1]
    have hself : findClient (getCredentialsHash env r cc svc)
        ((getCredentialsHash env r cc svc,
          (⟨st.nextId, svc, clientConfig env r cc⟩ : ClientHandle)) :: st.clients)
        = some ⟨st.nextId, svc, clientConfig env r cc⟩ := by
      simp [findClient]
    have hskip : findClient (getCredentialsHash env r' cc svc)
        ((getCredentialsHash env r cc svc,
          (⟨st.nextId, svc, clientConfig env r cc⟩ : ClientHandle)) :: st.clients)
        = findClient (getCredentialsHash env r' cc svc) st.clients :=
      findClient_cons_ne _ _ _ _ (fun hh => hkey hh.symm)
    constructor
    · exact getServiceClient_hit hself
    · cases h2 : findClient (getCredentialsHash env r' cc svc) st.clients with
      | some h' =>
        have hid : h'.id < st.nextId := hwf.1 _ _ h2
        rw [getServiceClient_hit (hskip.trans h2)]
        intro heq
        have : h'.id = st.nextId := congrArg ClientHandle.id heq
        omega
      | none =>
        rw [getServiceClient_miss (hskip.trans h2)]
        intro heq
        have : st.nextId + 1 = st.nextId := congrArg ClientHandle.id heq
        omega

theorem getServiceClient_cache_idempotent_witness :
    getServiceClient ⟨false, none, none, none, none, none⟩
        (getServiceClient ⟨false, none, none, none, none, none⟩ emptyCache
          "eu-central-1" .s3 none).2 "eu-central-1" .s3 none
      = getServiceClient ⟨false, none, none, none, none, none⟩ emptyCache
          "eu-central-1" .s3 none ∧
    (getServiceClient ⟨false, none, none, none, none, none⟩
        (getServiceClient ⟨false, none, none, none, none, none⟩ emptyCache
          "eu-central-1" .s3 none).2 "us-east-1" .s3 none).1
      ≠ (getServiceClient ⟨false, none, none, none, none, none⟩ emptyCache
          "eu-central-1" .s3 none).1 :=
  getServiceClient_cache_idempotent ⟨false, none, none, none, none, none⟩ emptyCache
    "eu-central-1" "us-east-1" .s3 none cacheWF_empty (by decide)

/-- Claim C2: identity normalization maps the two recognized principal shapes
correctly: every IAM-user ARN `arn:aws:iam::<account>:user/<name>` passes
through unchanged, and every assumed-role ARN
`arn:aws:sts::<account>:assumed-role/<roleName>/<sessionName>` (role name
free of slashes and of the line terminators the `(.*)` group stops at) is
rewritten to `arn:aws:iam::<account>:role/<roleName>`. -/
theorem normalizeArn_recognized_shapes :
    (∀ (acct name : String), acct ≠ "" → (∀ c ∈ acct.data, c.isDigit = true) →
      normalizeArn ("arn:aws:iam::" ++ acct ++ ":user/" ++ name)
        = .ok ("arn:aws:iam::" ++ acct ++ ":user/" ++ name)) ∧
    (∀ (acct role session : String), acct ≠ "" → (∀ c ∈ acct.data, c.isDigit = true) →
      role ≠ "" → (∀ c ∈ role.data, c ≠ '/' ∧ notNewline c = true) →
      normalizeArn ("arn:aws:sts::" ++ acct ++ ":assumed-role/" ++ role ++ "/" ++ session)
        = .ok ("arn:aws:iam::" ++ acct ++ ":role/" ++ role)) := by
  constructor
  · intro acct name hne hd
    have hdata : ("arn:aws:iam::" ++ acct ++ ":user/" ++ name).data
        = arnLead ++ ("iam".data ++ (colon2 ++ (acct.data ++
            (colon1 ++ ("user".data ++ ('/' :: name.data)))))) := by
      simp only [data_append, List.append_assoc]; rfl
    have hm := matchArnAt_build "iam".data acct.data "user".data ('/' :: name.data)
      (by decide) (by decide) (ne_empty_data hne) hd (by decide) (by decide) (Or.inr rfl)
    have hf : findArn ("arn:aws:iam::" ++ acct ++ ":user/" ++ name).data
        = some ⟨"iam".data, acct.data, "user".data,
            ('/' :: name.data).takeWhile notNewline⟩ := by
      rw [hdata]; exact findArn_of_match _ _ hm
    unfold normalizeArn
    rw [hf]
    simp
  · intro acct role session hane had hrne hrc
    have hrole1 : ∀ c ∈ role.data, notSlash c = true := by
      intro c hc; simp [notSlash, (hrc c hc).1]
    have hroleNL : ∀ c ∈ role.data, notNewline c = true := by
      intro c hc; exact (hrc c hc).2
    have hdata : ("arn:aws:sts::" ++ acct ++ ":assumed-role/" ++ role ++ "/" ++ session).data
        = arnLead ++ ("sts".data ++ (colon2 ++ (acct.data ++
            (colon1 ++ ("assumed-role".data ++
              ('/' :: (role.data ++ '/' :: session.data))))))) := by
      simp only [data_append, List.append_assoc]; rfl
    have hm := matchArnAt_build "sts".data acct.data "assumed-role".data
      ('/' :: (role.data ++ '/' :: session.data))
      (by decide) (by decide) (ne_empty_data hane) had (by decide) (by decide) (Or.inr rfl)
    have hf : findArn ("arn:aws:sts::" ++ acct ++ ":assumed-role/" ++ role ++ "/" ++ session).data
        = some ⟨"sts".data, acct.data, "assumed-role".data,
            ('/' :: (role.data ++ '/' :: session.data)).takeWhile notNewline⟩ := by
      rw [hdata]; exact findArn_of_match _ _ hm
    have htw : ('/' :: (role.data ++ '/' :: session.data)).takeWhile notNewline
        = '/' :: (role.data ++ '/' :: session.data.takeWhile notNewline) := by
      rw [List.takeWhile_cons_of_pos (by decide)]
      rw [takeWhile_all_append notNewline role.data ('/' :: session.data) hroleNL]
      rw [List.takeWhile_cons_of_pos (by decide)]
    have hfr : findRoleSession ('/' :: (role.data ++ '/' :: session.data.takeWhile notNewline))
        = some (role.data, (session.data.takeWhile notNewline).takeWhile notNewline) :=
      findRoleSession_of_match _ _
        (matchRoleAt_build role.data (session.data.takeWhile notNewline)
          (ne_empty_data hrne) hrole1)
    have hc1 : ¬("sts".data = "iam".data ∧ "assumed-role".data = "user".data) := by decide
    have hout : String.mk ("arn:aws:iam::".data ++ acct.data ++ ":role/".data ++ role.data)
        = "arn:aws:iam::" ++ acct ++ ":role/" ++ role :=
      data_inj (by simp only [data_append, List.append_assoc])
    unfold normalizeArn
    rw [hf]
    simp only [htw, hfr, hc1, if_false]
    rw [← hout]
    simp

theorem normalizeArn_recognized_shapes_witness :
    normalizeArn "arn:aws:iam::123456789012:user/alice"
      = .ok "arn:aws:iam::123456789012:user/alice" ∧
    normalizeArn "arn:aws:sts::123456789012:assumed-role/MyRole/session-1"
      = .ok "arn:aws:iam::123456789012:role/MyRole" :=
  ⟨normalizeArn_recognized_shapes.1 "123456789012" "alice" (by decide) (by decide),
   normalizeArn_recognized_shapes.2 "123456789012" "MyRole" "session-1"
     (by decide) (by decide) (by decide) (by decide)⟩

/-- Claim C5: identity normalization rejects with two distinct error kinds:
any matching ARN whose (service, resourceType) pair is neither (iam, user)
nor (sts, assumed-role) fails with the unsupported-identity error, and an sts
assumed-role ARN whose remainder lacks a role/session split fails with the
distinct assumed-role-specific error; the two kinds (and their messages)
differ. -/
theorem normalizeArn_rejection_kinds :
    (∀ (svc acct rtype rest : String),
      svc ≠ "" → (∀ c ∈ svc.data, isWordChar c = true) →
      acct ≠ "" → (∀ c ∈ acct.data, c.isDigit = true) →
      rtype ≠ "" → (∀ c ∈ rtype.data, c ≠ '/') →
      (rest = "" ∨ rest.data.head? = some '/') →
      ¬((svc = "iam" ∧ rtype = "user") ∨ (svc = "sts" ∧ rtype = "assumed-role")) →
      normalizeArn ("arn:aws:" ++ svc ++ "::" ++ acct ++ ":" ++ rtype ++ rest)
        = .error .unsupportedArn) ∧
    (∀ (acct role : String),
      acct ≠ "" → (∀ c ∈ acct.data, c.isDigit = true) →
      role ≠ "" → (∀ c ∈ role.data, c ≠ '/') →
      normalizeArn ("arn:aws:sts::" ++ acct ++ ":assumed-role/" ++ role)
        = .error .unsupportedAssumedRole) ∧
    (∀ acct : String, acct ≠ "" → (∀ c ∈ acct.data, c.isDigit = true) →
      normalizeArn ("arn:aws:sts::" ++ acct ++ ":assumed-role")
        = .error .unsupportedAssumedRole) ∧
    SimError.unsupportedArn ≠ SimError.unsupportedAssumedRole ∧
    errorMessage .unsupportedArn ≠ errorMessage .unsupportedAssumedRole := by
  refine ⟨?_, ?_, ?_, by decide, by decide⟩
  · intro svc acct rtype rest hs0 hs1 ha0 ha1 hr0 hr1 hrest hpair
    have hr1' : ∀ c ∈ rtype.data, notSlash c = true := by
      intro c hc; simp [notSlash, hr1 c hc]
    have hdata : ("arn:aws:" ++ svc ++ "::" ++ acct ++ ":" ++ rtype ++ rest).data
        = arnLead ++ (svc.data ++ (colon2 ++ (acct.data ++
            (colon1 ++ (rtype.data ++ rest.data))))) := by
      simp only [data_append, List.append_assoc]; rfl
    have hrest' : rest.data = [] ∨ rest.data.head? = some '/' := by
      rcases hrest with h | h
      · left; rw [h]
      · right; exact h
    have hm := matchArnAt_build svc.data acct.data rtype.data rest.data
      (ne_empty_data hs0) hs1 (ne_empty_data ha0) ha1 (ne_empty_data hr0) hr1' hrest'
    have hf : findArn ("arn:aws:" ++ svc ++ "::" ++ acct ++ ":" ++ rtype ++ rest).data
        = some ⟨svc.data, acct.data, rtype.data, rest.data.takeWhile notNewline⟩ := by
      rw [hdata]; exact findArn_of_match _ _ hm
    have hc1 : ¬(svc.data = "iam".data ∧ rtype.data = "user".data) := by
      intro ⟨h1, h2⟩; exact hpair (Or.inl ⟨data_inj h1, data_inj h2⟩)
    have hc2 : ¬(svc.data = "sts".data ∧ rtype.data = "assumed-role".data) := by
      intro ⟨h1, h2⟩; exact hpair (Or.inr ⟨data_inj h1, data_inj h2⟩)
    unfold normalizeArn
    rw [hf]
    simp only [hc1, hc2, if_false]
  · intro acct role ha0 ha1 hr0 hr1
    have hr1' : ∀ c ∈ role.data, notSlash c = true := by
      intro c hc; simp [notSlash, hr1 c hc]
    have hdata : ("arn:aws:sts::" ++ acct ++ ":assumed-role/" ++ role).data
        = arnLead ++ ("sts".data ++ (colon2 ++ (acct.data ++
            (colon1 ++ ("assumed-role".data ++ ('/' :: role.data)))))) := by
      simp only [data_append, List.append_assoc]; rfl
    have hm := matchArnAt_build "sts".data acct.data "assumed-role".data ('/' :: role.data)
      (by decide) (by decide) (ne_empty_data ha0) ha1 (by decide) (by decide) (Or.inr rfl)
    have hf : findArn ("arn:aws:sts::" ++ acct ++ ":assumed-role/" ++ role).data
        = some ⟨"sts".data, acct.data, "assumed-role".data,
            ('/' :: role.data).takeWhile notNewline⟩ := by
      rw [hdata]; exact findArn_of_match _ _ hm
    have htw : ('/' :: role.data).takeWhile notNewline
        = '/' :: role.data.takeWhile notNewline := by
      rw [List.takeWhile_cons_of_pos (by decide)]
    have hno : ∀ c ∈ role.data.takeWhile notNewline, c ≠ '/' := by
      intro c hc
      exact hr1 c ((List.takeWhile_prefix notNewline).subset hc)
    have hfr : findRoleSession ('/' :: role.data.takeWhile notNewline) = none :=
      findRoleSession_single _ hno
    have hc1 : ¬("sts".data = "iam".data ∧ "assumed-role".data = "user".data) := by decide
    unfold normalizeArn
    rw [hf]
    simp only [htw, hfr, hc1, if_false]
    simp
  · intro acct ha0 ha1
    have hdata : ("arn:aws:sts::" ++ acct ++ ":assumed-role").data
        = arnLead ++ ("sts".data ++ (colon2 ++ (acct.data ++
            (colon1 ++ ("assumed-role".data ++ ([] : List Char)))))) := by
      simp only [data_append, List.append_assoc]; rfl
    have hm := matchArnAt_build "sts".data acct.data "assumed-role".data []
      (by decide) (by decide) (ne_empty_data ha0) ha1 (by decide) (by decide) (Or.inl rfl)
    have hf : findArn ("arn:aws:sts::" ++ acct ++ ":assumed-role").data
        = some ⟨"sts".data, acct.data, "assumed-role".data,
            ([] : List Char).takeWhile notNewline⟩ := by
      rw [hdata]; exact findArn_of_match _ _ hm
    have hc1 : ¬("sts".data = "iam".data ∧ "assumed-role".data = "user".data) := by decide
    unfold normalizeArn
    rw [hf]
    simp only [hc1, if_false]
    simp [findRoleSession]

theorem normalizeArn_rejection_kinds_witness :
    normalizeArn "arn:aws:ec2::123456789012:instance/i-abc"
      = .error .unsupportedArn ∧
    normalizeArn "arn:aws:sts::123456789012:assumed-role/onlyrole"
      = .error .unsupportedAssumedRole ∧
    normalizeArn "arn:aws:sts::123456789012:assumed-role"
      = .error .unsupportedAssumedRole :=
  ⟨normalizeArn_rejection_kinds.1 "ec2" "123456789012" "instance" "/i-abc"
      (by decide) (by decide) (by decide) (by decide) (by decide) (by decide)
      (Or.inr rfl) (by decide),
   normalizeArn_rejection_kinds.2.1 "123456789012" "onlyrole"
      (by decide) (by decide) (by decide) (by decide),
   normalizeArn_rejection_kinds.2.2.1 "123456789012" (by decide) (by decide)⟩

/-- `normalizeArn` of the empty string rejects. -/
lemma normalizeArn_empty : normalizeArn "" = .error .unsupportedArn := rfl

/-- When the pattern first succeeds at the offset just past `pre`, an
IAM-user-shaped remainder makes normalization accept the ENTIRE original
string (prefix included). -/
lemma normalizeArn_skip_user (pre acct tail : String)
    (ha0 : acct ≠ "") (ha1 : ∀ c ∈ acct.data, c.isDigit = true)
    (hpre : ∀ i < pre.data.length,
      matchArnAt ((pre ++ "arn:aws:iam::" ++ acct ++ ":user/" ++ tail).data.drop i) = none) :
    normalizeArn (pre ++ "arn:aws:iam::" ++ acct ++ ":user/" ++ tail)
      = .ok (pre ++ "arn:aws:iam::" ++ acct ++ ":user/" ++ tail) := by
  have hdata : (pre ++ "arn:aws:iam::" ++ acct ++ ":user/" ++ tail).data
      = pre.data ++ (arnLead ++ ("iam".data ++ (colon2 ++ (acct.data ++
          (colon1 ++ ("user".data ++ ('/' :: tail.data))))))) := by
    simp only [data_append, List.append_assoc]; rfl
  have hm := matchArnAt_build "iam".data acct.data "user".data ('/' :: tail.data)
    (by decide) (by decide) (ne_empty_data ha0) ha1 (by decide) (by decide) (Or.inr rfl)
  have hskip : findArn (pre.data ++ (arnLead ++ ("iam".data ++ (colon2 ++ (acct.data ++
      (colon1 ++ ("user".data ++ ('/' :: tail.data))))))))
      = findArn (arnLead ++ ("iam".data ++ (colon2 ++ (acct.data ++
          (colon1 ++ ("user".data ++ ('/' :: tail.data)))))))  := by
    refine findArn_skip _ pre.data ?_
    intro i hi
    have hh := hpre i hi
    rw [hdata] at hh
    rwa [List.drop_append_eq_append_drop, Nat.sub_eq_zero_of_le (le_of_lt hi),
      List.drop_zero] at hh
  have hf : findArn (pre ++ "arn:aws:iam::" ++ acct ++ ":user/" ++ tail).data
      = some ⟨"iam".data, acct.data, "user".data, ('/' :: tail.data).takeWhile notNewline⟩ := by
    rw [hdata, hskip]
    exact findArn_of_match _ _ hm
  unfold normalizeArn
  rw [hf]
  simp

/-- Claim C10: the ARN matcher is unanchored: when the principal-ARN pattern
first matches at a proper offset inside the string (arbitrary prefix text
before it, arbitrary suffix after it), normalization does not reject, and in
the IAM-user case the ENTIRE original string — surrounding text included —
is accepted and is the principal ARN handed to the simulation collaborator. -/
theorem normalizeArn_unanchored :
    (∀ (pre acct tail : String),
      acct ≠ "" → (∀ c ∈ acct.data, c.isDigit = true) →
      (∀ i < pre.data.length,
        matchArnAt ((pre ++ "arn:aws:iam::" ++ acct ++ ":user/" ++ tail).data.drop i) = none) →
      normalizeArn (pre ++ "arn:aws:iam::" ++ acct ++ ":user/" ++ tail)
        = .ok (pre ++ "arn:aws:iam::" ++ acct ++ ":user/" ++ tail)) ∧
    (∀ (pre acct tail : String) (p : RequiredPermission) (rs : List SimulationResult)
        (sim : String → RequiredPermission → Except SimError (List SimulationResult)),
      acct ≠ "" → (∀ c ∈ acct.data, c.isDigit = true) →
      (∀ i < pre.data.length,
        matchArnAt ((pre ++ "arn:aws:iam::" ++ acct ++ ":user/" ++ tail).data.drop i) = none) →
      sim (pre ++ "arn:aws:iam::" ++ acct ++ ":user/" ++ tail) p = .ok rs →
      simulatePermissions (some (some (pre ++ "arn:aws:iam::" ++ acct ++ ":user/" ++ tail)))
          sim true [p]
        = (.simCall (pre ++ "arn:aws:iam::" ++ acct ++ ":user/" ++ tail) p 2
            :: rs.map .callback, .ok rs)) := by
  constructor
  · intro pre acct tail ha0 ha1 hpre
    exact normalizeArn_skip_user pre acct tail ha0 ha1 hpre
  · intro pre acct tail p rs sim ha0 ha1 hpre hsim
    have hn := normalizeArn_skip_user pre acct tail ha0 ha1 hpre
    have hSne : (pre ++ "arn:aws:iam::" ++ acct ++ ":user/" ++ tail) ≠ "" := by
      intro h
      rw [h, normalizeArn_empty] at hn
      exact Except.noConfusion hn
    simp [simulatePermissions, hSne, hn, runLoop, hsim]

theorem normalizeArn_unanchored_witness :
    normalizeArn "xxarn:aws:iam::123456789012:user/alice yy"
      = .ok "xxarn:aws:iam::123456789012:user/alice yy" ∧
    simulatePermissions (some (some "xxarn:aws:iam::123456789012:user/alice yy"))
        simFix true [permA]
      = (.simCall "xxarn:aws:iam::123456789012:user/alice yy" permA 2
          :: (resFix permA).map .callback, .ok (resFix permA)) :=
  ⟨normalizeArn_unanchored.1 "xx" "123456789012" "alice yy" (by decide) (by decide) (by decide),
   normalizeArn_unanchored.2 "xx" "123456789012" "alice yy" permA (resFix permA) simFix
     (by decide) (by decide) (by decide) rfl⟩

/-- Claim C3: with a valid caller identity and a collaborator that answers
every listed permission successfully, `simulatePermissions` aggregates in
strict encounter order: the result list is the concatenation of the
per-permission result blocks in list order, and (callback supplied) the event
trace is exactly, in order: the collaborator call for a permission, one
synchronous callback per result of that permission in the returned order, all
before the call for the next permission, and everything before the function
returns its aggregate. -/
theorem simulatePermissions_ordering (a arn : String)
    (sim : String → RequiredPermission → Except SimError (List SimulationResult))
    (resOf : RequiredPermission → List SimulationResult)
    (perms : List RequiredPermission)
    (ha : a ≠ "") (hn : normalizeArn a = .ok arn)
    (hsim : ∀ p ∈ perms, sim arn p = .ok (resOf p)) :
    simulatePermissions (some (some a)) sim true perms
      = (specOrderedTrace arn resOf perms, .ok ((perms.map resOf).flatten)) := by
  simp [simulatePermissions, ha, hn, runLoop_ok sim arn resOf perms [] hsim]

theorem simulatePermissions_ordering_witness :
    simulatePermissions (some (some "arn:aws:iam::123456789012:user/alice"))
        simFix true [permA, permB]
      = (specOrderedTrace "arn:aws:iam::123456789012:user/alice" resFix [permA, permB],
         .ok (([permA, permB].map resFix).flatten)) :=
  simulatePermissions_ordering "arn:aws:iam::123456789012:user/alice"
    "arn:aws:iam::123456789012:user/alice" simFix resFix [permA, permB]
    (by decide) rfl (fun p _ => rfl)

/-- Claim C4: no partial-failure tolerance: when the collaborator fails on a
permission (after succeeding on every earlier one), the whole call fails with
that same error, the caller receives no aggregated result list, the trace
stops at the failing collaborator call, and the collaborator is never invoked
for any later permission: every call event concerns an earlier permission or
the failing one. -/
theorem simulatePermissions_abort (a arn : String)
    (sim : String → RequiredPermission → Except SimError (List SimulationResult))
    (resOf : RequiredPermission → List SimulationResult)
    (ps1 ps2 : List RequiredPermission) (p₀ : RequiredPermission) (e : SimError)
    (ha : a ≠ "") (hn : normalizeArn a = .ok arn)
    (h1 : ∀ p ∈ ps1, sim arn p = .ok (resOf p)) (h0 : sim arn p₀ = .error e) :
    simulatePermissions (some (some a)) sim true (ps1 ++ p₀ :: ps2)
      = (specOrderedTrace arn resOf ps1 ++ [.simCall arn p₀ 2], .error e) ∧
    (∀ q : RequiredPermission,
      SimEvent.simCall arn q 2
        ∈ (simulatePermissions (some (some a)) sim true (ps1 ++ p₀ :: ps2)).1 →
      q ∈ ps1 ∨ q = p₀) := by
  have hmain : simulatePermissions (some (some a)) sim true (ps1 ++ p₀ :: ps2)
      = (specOrderedTrace arn resOf ps1 ++ [.simCall arn p₀ 2], .error e) := by
    simp [simulatePermissions, ha, hn, runLoop_error sim arn resOf e p₀ ps1 ps2 [] h1 h0]
  refine ⟨hmain, ?_⟩
  intro q hq
  rw [hmain] at hq
  simp only [List.mem_append, List.mem_singleton] at hq
  rcases hq with hq | hq
  · exact Or.inl (simCall_mem_specTrace arn resOf ps1 q 2 hq)
  · simp only [SimEvent.simCall.injEq] at hq
    exact Or.inr hq.2.1

theorem simulatePermissions_abort_witness :
    simulatePermissions (some (some "arn:aws:iam::123456789012:user/alice"))
        simFailFix true ([permA] ++ permB :: [permA])
      = (specOrderedTrace "arn:aws:iam::123456789012:user/alice" resFix [permA]
          ++ [.simCall "arn:aws:iam::123456789012:user/alice" permB 2],
         .error (.simFailure "AccessDenied")) :=
  (simulatePermissions_abort "arn:aws:iam::123456789012:user/alice"
    "arn:aws:iam::123456789012:user/alice" simFailFix resFix [permA] [permA] permB
    (.simFailure "AccessDenied") (by decide) rfl
    (by intro p hp; simp only [List.mem_singleton] at hp; subst hp; rfl) rfl).1
